import Mathlib

/-!
Shallow embedding of the MarpPi video multiplexer (scripts/video_multiplexer)
and proofs about its specification claims.

Modules embedded:
  * `state.py`   — `StreamState` (frame buffer, sequence, settings, stats)
  * `manager.py` — `StreamManager._capture_loop` / `_capture_source` cycle
  * `servers/http_server.py` — `MJPEGStreamHandler.handle_switch`
  * `servers/control_server.py` — control session command processing
  * `sources/kinect.py` — `KinectCapture` failure counting / availability
  * `sources/picam.py`  — `PiCameraCapture` subprocess lifecycle

Python `bytes` is modelled as `List Nat`, Python `int` as `Int` (or `Nat`
where the source can never make it negative), Python `float` settings as `ℚ`
(the clamp bounds 0.25 and 2.0 are exact), wall-clock timestamps as `Nat`.
Blocking waits are modelled by the finite trace of states the waiter observes
at successive wake-ups; an exhausted trace is the timeout/shutdown case.
-/

namespace MarpPi

/-- JPEG payloads (`bytes` in Python). -/
abbrev Bytes := List Nat

/-- `StreamStats` dataclass from `state.py`.  `clients_connected` is a Python
`int`, so it is modelled as `Int` to make the non-negativity claim about it
meaningful. -/
structure StreamStats where
  frames_captured : Nat := 0
  frames_sent : Nat := 0
  clients_connected : Int := 0
  source_switches : Nat := 0
  last_frame_time : Nat := 0
  deriving Repr, DecidableEq

/-- `StreamState` from `state.py` (the lock/condition fields carry no data;
the notification behaviour is modelled in `get_frame` via observation
traces). -/
structure StreamState where
  stream_id : String
  current_source : String
  frame : Option Bytes := none
  frame_id : Nat := 0
  jpeg_quality : Int := 70
  scale_factor : ℚ := 1
  picam_preset : String := "high"
  stats : StreamStats := {}
  deriving Repr, DecidableEq

namespace StreamState

/-- `StreamState.__init__` with an explicit initial source
(`initial_source or DEFAULT_SOURCE`, where `DEFAULT_SOURCE = 'picam'`,
`JPEG_QUALITY = 70`, `DEFAULT_PICAM_PRESET = 'high'`). -/
def init (stream_id : String) (initial_source : Option String) : StreamState :=
  { stream_id := stream_id
    current_source := initial_source.getD "picam" }

/-- `StreamState.set_frame`: store the bytes, bump `frame_id`, bump
`frames_captured`, record the timestamp.  (`notify_all` has no effect on the
data; waiters are modelled by the traces of `get_frame`.) -/
def set_frame (s : StreamState) (jpeg_bytes : Bytes) (now : Nat) : StreamState :=
  { s with
    frame := some jpeg_bytes
    frame_id := s.frame_id + 1
    stats := { s.stats with
      frames_captured := s.stats.frames_captured + 1
      last_frame_time := now } }

/-- One observation of the stream made by a waiter inside
`StreamState.get_frame` when it holds the condition lock. -/
structure FrameView where
  frame : Option Bytes
  frame_id : Nat
  deriving Repr, DecidableEq

/-- The view of a `StreamState` that `get_frame` reads under the lock. -/
def view (s : StreamState) : FrameView :=
  ⟨s.frame, s.frame_id⟩

/-- `StreamState.get_frame`: the loop checks `frame_id == last_frame_id` at
each wake-up; `trace` is the sequence of states observed at successive
wake-ups, and an exhausted trace is the `remaining <= 0` / wait-timeout /
shutdown-notify case, which returns `(None, last_frame_id)`.  Otherwise the
first observation whose `frame_id` differs from `last_frame_id` is returned
as `(self.frame, self.frame_id)`. -/
def get_frame (trace : List FrameView) (last_frame_id : Nat) : Option Bytes × Nat :=
  match trace with
  | [] => (none, last_frame_id)
  | v :: rest =>
      if v.frame_id = last_frame_id then get_frame rest last_frame_id
      else (v.frame, v.frame_id)

/-- `StreamState.set_source`: record the new source, count the switch. -/
def set_source (s : StreamState) (source : String) : StreamState :=
  { s with
    current_source := source
    stats := { s.stats with source_switches := s.stats.source_switches + 1 } }

/-- The clamp on `jpeg_quality` in `update_settings`:
`max(1, min(100, int(v)))`. -/
def clamp_quality (v : Int) : Int :=
  max 1 (min 100 v)

/-- The clamp on `scale_factor` in `update_settings`:
`max(0.25, min(2.0, float(v)))`. -/
def clamp_scale (v : ℚ) : ℚ :=
  max (1/4) (min 2 v)

/-- `StreamState.update_settings`: each keyword argument is optional; present
values of `jpeg_quality` and `scale_factor` are clamped, `picam_preset` is
stored as given. -/
def update_settings (s : StreamState) (jpeg_quality : Option Int)
    (scale_factor : Option ℚ) (picam_preset : Option String) : StreamState :=
  let s := match jpeg_quality with
    | some q => { s with jpeg_quality := clamp_quality q }
    | none => s
  let s := match scale_factor with
    | some f => { s with scale_factor := clamp_scale f }
    | none => s
  match picam_preset with
  | some p => { s with picam_preset := p }
  | none => s

/-- `StreamState.increment_clients`. -/
def increment_clients (s : StreamState) : StreamState :=
  { s with stats := { s.stats with clients_connected := s.stats.clients_connected + 1 } }

/-- `StreamState.decrement_clients`: `max(0, clients_connected - 1)`. -/
def decrement_clients (s : StreamState) : StreamState :=
  { s with stats := { s.stats with clients_connected := max 0 (s.stats.clients_connected - 1) } }

/-- `StreamState.increment_frames_sent`. -/
def increment_frames_sent (s : StreamState) : StreamState :=
  { s with stats := { s.stats with frames_sent := s.stats.frames_sent + 1 } }

/-- The mutating operations of `StreamState` (the read-only methods
`get_settings`, `get_stats`, `get_frame` do not change the state). -/
inductive Op where
  | setFrame (jpeg_bytes : Bytes) (now : Nat)
  | setSource (source : String)
  | updateSettings (jpeg_quality : Option Int) (scale_factor : Option ℚ)
      (picam_preset : Option String)
  | incClients
  | decClients
  | incFramesSent
  deriving Repr, DecidableEq

/-- Apply one mutating operation. -/
def applyOp (s : StreamState) : Op → StreamState
  | .setFrame b now => s.set_frame b now
  | .setSource src => s.set_source src
  | .updateSettings q f p => s.update_settings q f p
  | .incClients => s.increment_clients
  | .decClients => s.decrement_clients
  | .incFramesSent => s.increment_frames_sent

/-- Apply a sequence of mutating operations, oldest first. -/
def applyOps (s : StreamState) (ops : List Op) : StreamState :=
  ops.foldl applyOp s

end StreamState

namespace StreamState

lemma frame_id_update_settings (s : StreamState) (q : Option Int) (f : Option ℚ)
    (p : Option String) : (s.update_settings q f p).frame_id = s.frame_id := by
  unfold update_settings
  cases q <;> cases f <;> cases p <;> rfl

lemma frame_id_le_applyOp (s : StreamState) (op : Op) :
    s.frame_id ≤ (s.applyOp op).frame_id := by
  cases op with
  | setFrame b now => exact Nat.le_succ _
  | updateSettings q f p => exact le_of_eq (frame_id_update_settings s q f p).symm
  | _ => exact le_refl _

lemma frame_id_le_applyOps (s : StreamState) (ops : List Op) :
    s.frame_id ≤ (s.applyOps ops).frame_id := by
  induction ops generalizing s with
  | nil => exact le_refl _
  | cons op rest ih => exact le_trans (frame_id_le_applyOp s op) (ih (s.applyOp op))

end StreamState

open StreamState in
/-- C2: `set_frame` stores the bytes as the current frame, increments the
frame sequence by exactly one, increments `frames_captured`, and records the
timestamp (waiters are woken via `notify_all`, which is modelled by the
observation traces of `get_frame`); moreover the frame sequence strictly
increases across every capture and never decreases under any mutating
operation or any sequence of them. -/
theorem C2_set_frame_increments_sequence (s : StreamState) (b : Bytes) (now : Nat) :
    (s.set_frame b now).frame = some b ∧
    (s.set_frame b now).frame_id = s.frame_id + 1 ∧
    (s.set_frame b now).stats.frames_captured = s.stats.frames_captured + 1 ∧
    (s.set_frame b now).stats.last_frame_time = now ∧
    s.frame_id < (s.set_frame b now).frame_id ∧
    (∀ op : Op, s.frame_id ≤ (s.applyOp op).frame_id) ∧
    (∀ ops : List Op, s.frame_id ≤ (s.applyOps ops).frame_id) :=
  ⟨rfl, rfl, rfl, rfl, Nat.lt_succ_self _, frame_id_le_applyOp s, frame_id_le_applyOps s⟩

open StreamState in
/-- C3: `update_settings` clamps `jpeg_quality` into `[1, 100]` and
`scale_factor` into `[0.25, 2.0]`; in particular quality 150 becomes 100,
quality -5 becomes 1, scale 9 becomes 2.0 and scale 0.01 becomes 0.25. -/
theorem C3_update_settings_clamps (s : StreamState) :
    (∀ q : Int, 1 ≤ (s.update_settings (some q) none none).jpeg_quality ∧
        (s.update_settings (some q) none none).jpeg_quality ≤ 100) ∧
    (∀ f : ℚ, 1/4 ≤ (s.update_settings none (some f) none).scale_factor ∧
        (s.update_settings none (some f) none).scale_factor ≤ 2) ∧
    (s.update_settings (some 150) none none).jpeg_quality = 100 ∧
    (s.update_settings (some (-5)) none none).jpeg_quality = 1 ∧
    (s.update_settings none (some 9) none).scale_factor = 2 ∧
    (s.update_settings none (some (1/100)) none).scale_factor = 1/4 := by
  refine ⟨fun q => ⟨?_, ?_⟩, fun f => ⟨?_, ?_⟩, ?_, ?_, ?_, ?_⟩ <;>
    simp only [update_settings, clamp_quality, clamp_scale]
  · exact le_max_left _ _
  · exact max_le (by norm_num) (min_le_left _ _)
  · exact le_max_left _ _
  · exact max_le (by norm_num) (min_le_left _ _)
  · norm_num
  · norm_num
  · norm_num
  · norm_num

namespace StreamState

lemma clients_nonneg_applyOp (s : StreamState) (op : Op)
    (h : 0 ≤ s.stats.clients_connected) :
    0 ≤ (s.applyOp op).stats.clients_connected := by
  cases op with
  | decClients => exact le_max_left _ _
  | incClients =>
      exact le_trans h (by
        simp only [applyOp, increment_clients]
        exact le_add_of_nonneg_right Int.one_nonneg)
  | updateSettings q f p =>
      have : (s.update_settings q f p).stats.clients_connected
          = s.stats.clients_connected := by
        unfold update_settings; cases q <;> cases f <;> cases p <;> rfl
      simpa [applyOp, this]
  | _ => exact h

end StreamState

open StreamState in
/-- C10: `clients_connected` never goes negative: `increment_clients` adds
one, `decrement_clients` clamps at zero, and every sequence of mutating
operations started from a non-negative counter keeps it non-negative. -/
theorem C10_clients_connected_nonneg (s : StreamState) (ops : List Op)
    (h : 0 ≤ s.stats.clients_connected) :
    0 ≤ (s.applyOps ops).stats.clients_connected ∧
    (s.increment_clients).stats.clients_connected = s.stats.clients_connected + 1 ∧
    (s.stats.clients_connected = 0 →
      (s.decrement_clients).stats.clients_connected = 0) := by
  refine ⟨?_, rfl, fun h0 => ?_⟩
  · induction ops generalizing s with
    | nil => exact h
    | cons op rest ih => exact ih (s.applyOp op) (clients_nonneg_applyOp s op h)
  · simp [decrement_clients, h0]

open StreamState in
/-- C10 witness: four decrements then an increment on a fresh stream leave
the counter non-negative, decrementing at zero stays at zero. -/
theorem C10_clients_connected_nonneg_witness :
    (0 : Int) ≤ ((init "main" none).applyOps
        [.decClients, .decClients, .incClients, .decClients, .decClients]).stats.clients_connected ∧
    ((init "main" none).stats.clients_connected = 0 →
      ((init "main" none).decrement_clients).stats.clients_connected = 0) :=
  ⟨(C10_clients_connected_nonneg (init "main" none)
      [.decClients, .decClients, .incClients, .decClients, .decClients] (by decide)).1,
   (C10_clients_connected_nonneg (init "main" none) [] (by decide)).2.2⟩

/-- C1 as stated is false: `get_frame` waits for the sequence to *differ*
from `last_sequence`, not to advance past it.  With current sequence 1 and
`last_sequence = 5` it returns the frame immediately with sequence 1, which
is not strictly greater than 5. -/
theorem C1_counterexample :
    StreamState.get_frame [⟨some [1], 1⟩] 5 = (some [1], 1) ∧ ¬ (1 > 5) := by
  constructor
  · rfl
  · decide

namespace StreamState

lemma get_frame_timeout : ∀ (trace : List FrameView) (last : Nat),
    (∀ v ∈ trace, v.frame_id = last) → get_frame trace last = (none, last) := by
  intro trace
  induction trace with
  | nil => intro last _; rfl
  | cons v rest ih =>
      intro last hall
      have hv : v.frame_id = last := hall v (List.mem_cons_self _ _)
      simp only [get_frame, if_pos hv]
      exact ih last fun w hw => hall w (List.mem_cons_of_mem _ hw)

lemma get_frame_some : ∀ (trace : List FrameView) (last : Nat) (b : Bytes) (id : Nat),
    get_frame trace last = (some b, id) →
    id ≠ last ∧ (⟨some b, id⟩ : FrameView) ∈ trace := by
  intro trace
  induction trace with
  | nil => intro last b id h; simp [get_frame] at h
  | cons v rest ih =>
      intro last b id h
      by_cases hv : v.frame_id = last
      · simp only [get_frame, if_pos hv] at h
        obtain ⟨hne, hmem⟩ := ih last b id h
        exact ⟨hne, List.mem_cons_of_mem _ hmem⟩
      · simp only [get_frame, if_neg hv] at h
        have hf : v.frame = some b := congrArg Prod.fst h
        have hid : v.frame_id = id := congrArg Prod.snd h
        refine ⟨hid ▸ hv, ?_⟩
        have hv2 : v = ⟨some b, id⟩ := by cases v; simp_all
        exact hv2 ▸ List.mem_cons_self _ _

end StreamState

open StreamState in
/-- C1 (amended): `get_frame` waits until the observed sequence *differs*
from `last_sequence`; on timeout (exhausted observation trace) it returns
`(none, last_sequence)`; when it returns a frame, the returned pair is an
observed `(frame, sequence)` of the stream whose sequence differs from
`last_sequence`, and it is strictly greater whenever no observed sequence
was below `last_sequence` (which holds in normal use, where `last_sequence`
is a previously returned sequence and the sequence never decreases). -/
theorem C1_get_frame_spec (trace : List FrameView) (last : Nat) :
    (get_frame [] last = (none, last)) ∧
    ((∀ v ∈ trace, v.frame_id = last) → get_frame trace last = (none, last)) ∧
    (∀ b id, get_frame trace last = (some b, id) →
        id ≠ last ∧ (⟨some b, id⟩ : FrameView) ∈ trace) ∧
    (∀ b id, (∀ v ∈ trace, last ≤ v.frame_id) →
        get_frame trace last = (some b, id) → last < id) := by
  refine ⟨rfl, get_frame_timeout trace last, get_frame_some trace last, ?_⟩
  intro b id hmono h
  obtain ⟨hne, hmem⟩ := get_frame_some trace last b id h
  exact lt_of_le_of_ne (hmono _ hmem) (Ne.symm hne)

open StreamState in
/-- C1 witness: a waiter that observes sequence 0 (unchanged) and then
sequence 1 returns the new frame with sequence 1 > 0; a waiter whose trace
never leaves sequence 0 times out with `(none, 0)`. -/
theorem C1_get_frame_spec_witness :
    get_frame [⟨some [7], 1⟩] 0 = (some [7], 1) ∧ (0 : Nat) < 1 ∧
    get_frame [⟨none, 0⟩, ⟨none, 0⟩] 0 = (none, 0) :=
  ⟨rfl,
   (C1_get_frame_spec [⟨some [7], 1⟩] 0).2.2.2 [7] 1
     (by intro v hv; simp_all) rfl,
   (C1_get_frame_spec [⟨none, 0⟩, ⟨none, 0⟩] 0).2.1
     (by intro v hv; simp_all)⟩

/-! ## Configuration constants (`config.py`) -/

namespace Config

/-- `ALL_SOURCES` from `config.py`. -/
def ALL_SOURCES : List String := ["kinect_rgb", "kinect_ir", "kinect_depth", "picam"]

/-- `KINECT_SOURCES` from `config.py`. -/
def KINECT_SOURCES : List String := ["kinect_rgb", "kinect_ir", "kinect_depth"]

/-- A Pi camera resolution preset (`PICAM_PRESETS` values). -/
structure PicamPreset where
  width : Nat
  height : Nat
  fps : Nat
  deriving Repr, DecidableEq

/-- `PICAM_PRESETS` from `config.py`, in insertion order. -/
def PICAM_PRESETS : List (String × PicamPreset) :=
  [("low", ⟨640, 480, 30⟩), ("medium", ⟨1280, 720, 24⟩),
   ("high", ⟨1280, 800, 24⟩), ("full", ⟨1920, 1080, 15⟩)]

/-- The keys of `PICAM_PRESETS`. -/
def PICAM_PRESET_KEYS : List String := PICAM_PRESETS.map Prod.fst

/-- `get_available_sources()`: all sources when the global Kinect
availability flag is set, otherwise only `picam`. -/
def get_available_sources (kinect_available : Bool) : List String :=
  if kinect_available then ALL_SOURCES else ["picam"]

end Config

/-! ## StreamManager capture cycle (`manager.py`) -/

namespace StreamManager

/-- One step of building `source_to_streams` in
`StreamManager._get_active_sources`: Python dict semantics, keys in first-seen
order, each stream appended to its source's list. -/
def addStream (groups : List (String × List StreamState)) (s : StreamState) :
    List (String × List StreamState) :=
  if groups.any (fun g => g.1 = s.current_source) then
    groups.map (fun g => if g.1 = s.current_source then (g.1, g.2 ++ [s]) else g)
  else groups ++ [(s.current_source, [s])]

/-- `StreamManager._get_active_sources`: the mapping of sources to the streams
that currently select them, in registry order. -/
def source_to_streams (streams : List StreamState) :
    List (String × List StreamState) :=
  streams.foldl addStream []

/-- One cycle of `StreamManager._capture_loop` after the Pi-camera lifecycle
step: for each distinct needed source call `_capture_source` once (`capture`
is the oracle for its result); when it yields bytes, push the identical bytes
to every stream of that source via `set_frame`.  Returns the updated groups
and the list of sources on which `_capture_source` was invoked. -/
def capture_cycle (capture : String → Option Bytes) (now : Nat)
    (streams : List StreamState) :
    List (String × List StreamState) × List String :=
  let groups := source_to_streams streams
  (groups.map fun g =>
    (g.1, match capture g.1 with
      | some b => g.2.map (fun s => s.set_frame b now)
      | none => g.2),
   groups.map Prod.fst)

lemma addStream_keys (groups : List (String × List StreamState)) (s : StreamState) :
    (addStream groups s).map Prod.fst =
      if groups.any (fun g => g.1 = s.current_source) then groups.map Prod.fst
      else groups.map Prod.fst ++ [s.current_source] := by
  unfold addStream
  by_cases h : groups.any (fun g => g.1 = s.current_source)
  · simp only [h, if_true, List.map_map]
    refine List.map_congr_left fun g _ => ?_
    by_cases hg : g.1 = s.current_source <;> simp [hg]
  · simp [h]

lemma mem_keys_addStream (groups : List (String × List StreamState))
    (s : StreamState) (src : String) :
    src ∈ (addStream groups s).map Prod.fst ↔
      src ∈ groups.map Prod.fst ∨ src = s.current_source := by
  rw [addStream_keys]
  by_cases h : groups.any (fun g => g.1 = s.current_source)
  · simp only [h, if_true]
    constructor
    · exact Or.inl
    · rintro (hm | rfl)
      · exact hm
      · obtain ⟨g, hg, hgeq⟩ := List.any_eq_true.1 h
        exact List.mem_map.2 ⟨g, hg, (of_decide_eq_true hgeq).symm ▸ rfl⟩
  · simp [h]

lemma nodup_keys_addStream (groups : List (String × List StreamState))
    (s : StreamState) (h : (groups.map Prod.fst).Nodup) :
    ((addStream groups s).map Prod.fst).Nodup := by
  rw [addStream_keys]
  by_cases hc : groups.any (fun g => g.1 = s.current_source)
  · simpa [hc] using h
  · have hnot : s.current_source ∉ groups.map Prod.fst := by
      intro hmem
      obtain ⟨g, hg, hgeq⟩ := List.mem_map.1 hmem
      exact absurd (List.any_eq_true.2 ⟨g, hg, decide_eq_true hgeq⟩) hc
    simp only [hc, Bool.false_eq_true, if_false]
    rw [List.nodup_append]
    exact ⟨h, List.nodup_singleton _, by
      intro a ha hb
      rw [List.mem_singleton] at hb
      exact hnot (hb ▸ ha)⟩

lemma nodup_keys_foldl : ∀ (streams : List StreamState)
    (groups : List (String × List StreamState)),
    (groups.map Prod.fst).Nodup →
    ((streams.foldl addStream groups).map Prod.fst).Nodup := by
  intro streams
  induction streams with
  | nil => intro groups h; exact h
  | cons s rest ih =>
      intro groups h
      exact ih (addStream groups s) (nodup_keys_addStream groups s h)

lemma mem_keys_foldl : ∀ (streams : List StreamState)
    (groups : List (String × List StreamState)) (src : String),
    src ∈ (streams.foldl addStream groups).map Prod.fst ↔
      src ∈ groups.map Prod.fst ∨ ∃ s ∈ streams, s.current_source = src := by
  intro streams
  induction streams with
  | nil => intro groups src; simp
  | cons s rest ih =>
      intro groups src
      rw [List.foldl_cons, ih, mem_keys_addStream]
      constructor
      · rintro ((hm | rfl) | ⟨t, ht, rfl⟩)
        · exact Or.inl hm
        · exact Or.inr ⟨s, List.mem_cons_self _ _, rfl⟩
        · exact Or.inr ⟨t, List.mem_cons_of_mem _ ht, rfl⟩
      · rintro (hm | ⟨t, ht, rfl⟩)
        · exact Or.inl (Or.inl hm)
        · rcases List.mem_cons.1 ht with rfl | ht
          · exact Or.inl (Or.inr rfl)
          · exact Or.inr ⟨t, ht, rfl⟩

/-- The example registry of C4: streams A and B select `kinect_rgb`, C
selects `picam`, in registry order. -/
def exampleStreams : List StreamState :=
  [StreamState.init "A" (some "kinect_rgb"),
   StreamState.init "B" (some "kinect_rgb"),
   StreamState.init "C" (some "picam")]

end StreamManager

open StreamManager StreamState in
/-- C4: one cycle of the capture loop partitions the streams by selected
source and performs exactly one `_capture_source` call per distinct needed
source (the call list has no duplicates and contains exactly the sources in
use), pushing the identical encoded bytes to every stream of that source; in
the example registry {A→kinect_rgb, B→kinect_rgb, C→picam} the cycle calls
capture once on `kinect_rgb` and once on `picam`, and A and B receive
byte-identical payloads. -/
theorem C4_capture_cycle_partition (capture : String → Option Bytes) (now : Nat)
    (streams : List StreamState) :
    ((capture_cycle capture now streams).2).Nodup ∧
    (∀ src, src ∈ (capture_cycle capture now streams).2 ↔
        ∃ s ∈ streams, s.current_source = src) ∧
    (∀ src, (∃ s ∈ streams, s.current_source = src) →
        (capture_cycle capture now streams).2.count src = 1) ∧
    (∀ g ∈ (capture_cycle capture now streams).1, ∀ b, capture g.1 = some b →
        ∀ s ∈ g.2, s.frame = some b) ∧
    (capture_cycle capture now exampleStreams).2 = ["kinect_rgb", "picam"] ∧
    (∀ bk bp, capture "kinect_rgb" = some bk → capture "picam" = some bp →
        (capture_cycle capture now exampleStreams).1.map
            (fun g => (g.1, g.2.map StreamState.frame)) =
          [("kinect_rgb", [some bk, some bk]), ("picam", [some bp])]) := by
  have hnodup : ((capture_cycle capture now streams).2).Nodup :=
    nodup_keys_foldl streams [] (by simp)
  have hmem : ∀ src, src ∈ (capture_cycle capture now streams).2 ↔
      ∃ s ∈ streams, s.current_source = src := by
    intro src
    rw [show (capture_cycle capture now streams).2
      = (streams.foldl addStream []).map Prod.fst from rfl, mem_keys_foldl]
    simp
  refine ⟨hnodup, hmem, ?_, ?_, ?_, ?_⟩
  · intro src hsrc
    exact List.count_eq_one_of_mem hnodup ((hmem src).2 hsrc)
  · intro g hg b hcap s hs
    obtain ⟨g0, hg0, rfl⟩ := List.mem_map.1 hg
    simp only at hcap
    simp only [hcap] at hs
    obtain ⟨s0, _, rfl⟩ := List.mem_map.1 hs
    rfl
  · rfl
  · intro bk bp hk hp
    have h1 : (capture_cycle capture now exampleStreams).1
        = (source_to_streams exampleStreams).map
            (fun g => (g.1, match capture g.1 with
              | some b => g.2.map (fun s => s.set_frame b now)
              | none => g.2)) := rfl
    have hg : source_to_streams exampleStreams
        = [("kinect_rgb",
            [StreamState.init "A" (some "kinect_rgb"),
             StreamState.init "B" (some "kinect_rgb")]),
           ("picam", [StreamState.init "C" (some "picam")])] := by
      rfl
    rw [h1, hg]
    simp only [List.map_cons, List.map_nil, hk, hp]
    rfl

namespace StreamManager

/-- A concrete capture oracle for the C4 witness: `kinect_rgb` encodes to
`[1, 2]`, `picam` to `[3]`, everything else fails. -/
def exampleCapture : String → Option Bytes := fun src =>
  if src = "kinect_rgb" then some [1, 2]
  else if src = "picam" then some [3] else none

end StreamManager

open StreamManager StreamState in
/-- C4 witness: on the example registry with a concrete capture oracle, the
cycle captures `kinect_rgb` exactly once and A and B end up with the same
bytes `[1, 2]` while C gets `[3]`. -/
theorem C4_capture_cycle_partition_witness :
    (capture_cycle exampleCapture 0 exampleStreams).2.count "kinect_rgb" = 1 ∧
    (capture_cycle exampleCapture 0 exampleStreams).1.map
        (fun g => (g.1, g.2.map StreamState.frame)) =
      [("kinect_rgb", [some [1, 2], some [1, 2]]), ("picam", [some [3]])] :=
  ⟨(C4_capture_cycle_partition exampleCapture 0 exampleStreams).2.2.1 "kinect_rgb"
      ⟨StreamState.init "A" (some "kinect_rgb"), by simp [exampleStreams], rfl⟩,
   (C4_capture_cycle_partition exampleCapture 0 exampleStreams).2.2.2.2.2
      [1, 2] [3] rfl rfl⟩

/-! ## HTTP `/switch` handler (`servers/http_server.py`) -/

namespace HttpServer

/-- A query parameter as the handler sees it after `params.get(k, '')` and
parsing: absent (or empty), present but unparsable by `int()` / `float()`
(which the bare `except` turns into the same 400 as out-of-range), or a
parsed value. -/
inductive Param (α : Type) where
  | absent
  | invalid
  | value (a : α)
  deriving Repr, DecidableEq

/-- The fields of a `/switch` request that `handle_switch` inspects.
`source` and `picam_res` are taken verbatim as strings; `quality` and
`scale` go through `int()` / `float()`. -/
structure SwitchReq where
  source : Option String := none
  quality : Param Int := .absent
  scale : Param ℚ := .absent
  picam_res : Option String := none
  deriving Repr, DecidableEq

/-- `StreamManager.switch_source` restricted to one existing stream: validate
the source against `get_available_sources()` before mutating anything. -/
def switch_source (kinect_available : Bool) (s : StreamState) (source : String) :
    Bool × StreamState :=
  if source ∈ Config.get_available_sources kinect_available then
    (true, s.set_source source)
  else (false, s)

/-- The `picam_res` stage of `handle_switch`, reached only if no earlier
field failed; `applied` records whether any earlier field was applied
(`response_parts` non-empty). -/
def stage_picam (req : SwitchReq) (s : StreamState) (applied : Bool) :
    Nat × StreamState :=
  match req.picam_res with
  | none => (if applied then 200 else 400, s)
  | some p =>
      if p ∈ Config.PICAM_PRESET_KEYS then
        (200, s.update_settings none none (some p))
      else (400, s)

/-- The `scale` stage of `handle_switch`. -/
def stage_scale (req : SwitchReq) (s : StreamState) (applied : Bool) :
    Nat × StreamState :=
  match req.scale with
  | .absent => stage_picam req s applied
  | .invalid => (400, s)
  | .value f =>
      if 1/4 ≤ f ∧ f ≤ 2 then
        stage_picam req (s.update_settings none (some f) none) true
      else (400, s)

/-- The `quality` stage of `handle_switch`. -/
def stage_quality (req : SwitchReq) (s : StreamState) (applied : Bool) :
    Nat × StreamState :=
  match req.quality with
  | .absent => stage_scale req s applied
  | .invalid => (400, s)
  | .value q =>
      if 1 ≤ q ∧ q ≤ 100 then
        stage_scale req (s.update_settings (some q) none none) true
      else (400, s)

/-- `MJPEGStreamHandler.handle_switch` on an existing target stream: the
fields are processed in the fixed order source, quality, scale, picam_res;
the first validation failure returns HTTP 400 immediately; if nothing was
provided the response is 400 (`No valid parameters`), otherwise 200. -/
def handle_switch (kinect_available : Bool) (req : SwitchReq) (s : StreamState) :
    Nat × StreamState :=
  match req.source with
  | none => stage_quality req s false
  | some src =>
      let r := switch_source kinect_available s src
      if r.1 then stage_quality req r.2 true else (400, s)

/-- The quality field is provided and does not validate. -/
def quality_bad (req : SwitchReq) : Prop :=
  req.quality = .invalid ∨ ∃ q, req.quality = .value q ∧ ¬(1 ≤ q ∧ q ≤ 100)

/-- The scale field is provided and does not validate. -/
def scale_bad (req : SwitchReq) : Prop :=
  req.scale = .invalid ∨ ∃ f, req.scale = .value f ∧ ¬(1/4 ≤ f ∧ f ≤ 2)

lemma stage_quality_absent (req : SwitchReq) (s : StreamState) (applied : Bool)
    (hq : req.quality = .absent) :
    stage_quality req s applied = stage_scale req s applied := by
  unfold stage_quality; rw [hq]

lemma stage_quality_invalid (req : SwitchReq) (s : StreamState) (applied : Bool)
    (hq : req.quality = .invalid) :
    stage_quality req s applied = (400, s) := by
  unfold stage_quality; rw [hq]

lemma stage_quality_value (req : SwitchReq) (s : StreamState) (applied : Bool)
    (q : Int) (hq : req.quality = .value q) :
    stage_quality req s applied =
      if 1 ≤ q ∧ q ≤ 100 then
        stage_scale req (s.update_settings (some q) none none) true
      else (400, s) := by
  unfold stage_quality; rw [hq]

lemma stage_scale_absent (req : SwitchReq) (s : StreamState) (applied : Bool)
    (hf : req.scale = .absent) :
    stage_scale req s applied = stage_picam req s applied := by
  unfold stage_scale; rw [hf]

lemma stage_scale_invalid (req : SwitchReq) (s : StreamState) (applied : Bool)
    (hf : req.scale = .invalid) :
    stage_scale req s applied = (400, s) := by
  unfold stage_scale; rw [hf]

lemma stage_scale_value (req : SwitchReq) (s : StreamState) (applied : Bool)
    (f : ℚ) (hf : req.scale = .value f) :
    stage_scale req s applied =
      if 1/4 ≤ f ∧ f ≤ 2 then
        stage_picam req (s.update_settings none (some f) none) true
      else (400, s) := by
  unfold stage_scale; rw [hf]

lemma stage_picam_fail (req : SwitchReq) (s : StreamState) (applied : Bool)
    (p : String) (hp : req.picam_res = some p) (h : p ∉ Config.PICAM_PRESET_KEYS) :
    stage_picam req s applied = (400, s) := by
  unfold stage_picam; rw [hp]
  exact if_neg h

lemma stage_scale_fail (req : SwitchReq) (s : StreamState) (applied : Bool)
    (h : scale_bad req) : stage_scale req s applied = (400, s) := by
  rcases h with h | ⟨f, hf, hbad⟩
  · exact stage_scale_invalid req s applied h
  · rw [stage_scale_value req s applied f hf]
    exact if_neg hbad

lemma stage_quality_fail (req : SwitchReq) (s : StreamState) (applied : Bool)
    (h : quality_bad req) : stage_quality req s applied = (400, s) := by
  rcases h with h | ⟨q, hq, hbad⟩
  · exact stage_quality_invalid req s applied h
  · rw [stage_quality_value req s applied q hq]
    exact if_neg hbad

lemma stage_quality_scale_bad (req : SwitchReq) (s : StreamState) (applied : Bool)
    (h : scale_bad req) :
    (stage_quality req s applied).1 = 400 ∧
    (stage_quality req s applied).2.scale_factor = s.scale_factor ∧
    (stage_quality req s applied).2.picam_preset = s.picam_preset := by
  cases hq : req.quality with
  | absent =>
      rw [stage_quality_absent req s applied hq, stage_scale_fail req s applied h]
      exact ⟨rfl, rfl, rfl⟩
  | invalid =>
      rw [stage_quality_invalid req s applied hq]
      exact ⟨rfl, rfl, rfl⟩
  | value q =>
      rw [stage_quality_value req s applied q hq]
      by_cases hr : 1 ≤ q ∧ q ≤ 100
      · rw [if_pos hr, stage_scale_fail req _ true h]; exact ⟨rfl, rfl, rfl⟩
      · rw [if_neg hr]; exact ⟨rfl, rfl, rfl⟩

lemma stage_scale_picam_bad (req : SwitchReq) (s : StreamState) (applied : Bool)
    (p : String) (hp : req.picam_res = some p) (h : p ∉ Config.PICAM_PRESET_KEYS) :
    (stage_scale req s applied).1 = 400 ∧
    (stage_scale req s applied).2.picam_preset = s.picam_preset := by
  cases hs : req.scale with
  | absent =>
      rw [stage_scale_absent req s applied hs, stage_picam_fail req s applied p hp h]
      exact ⟨rfl, rfl⟩
  | invalid =>
      rw [stage_scale_invalid req s applied hs]
      exact ⟨rfl, rfl⟩
  | value f =>
      rw [stage_scale_value req s applied f hs]
      by_cases hr : 1/4 ≤ f ∧ f ≤ 2
      · rw [if_pos hr, stage_picam_fail req _ true p hp h]; exact ⟨rfl, rfl⟩
      · rw [if_neg hr]; exact ⟨rfl, rfl⟩

lemma stage_quality_picam_bad (req : SwitchReq) (s : StreamState) (applied : Bool)
    (p : String) (hp : req.picam_res = some p) (h : p ∉ Config.PICAM_PRESET_KEYS) :
    (stage_quality req s applied).1 = 400 ∧
    (stage_quality req s applied).2.picam_preset = s.picam_preset := by
  cases hq : req.quality with
  | absent =>
      rw [stage_quality_absent req s applied hq]
      exact stage_scale_picam_bad req s applied p hp h
  | invalid =>
      rw [stage_quality_invalid req s applied hq]
      exact ⟨rfl, rfl⟩
  | value q =>
      rw [stage_quality_value req s applied q hq]
      by_cases hr : 1 ≤ q ∧ q ≤ 100
      · rw [if_pos hr]
        exact stage_scale_picam_bad req _ true p hp h
      · rw [if_neg hr]; exact ⟨rfl, rfl⟩

end HttpServer

open HttpServer in
/-- C5 as stated is false: a request whose later field fails validation can
still mutate the stream through an earlier valid field.  On the request
`/switch?source=picam&quality=150` against a stream on `kinect_rgb` (Kinect
available), the handler responds 400 for the out-of-range quality, but the
source has already been switched to `picam`. -/
theorem C5_counterexample :
    (handle_switch true
        { source := some "picam", quality := .value 150 }
        (StreamState.init "main" (some "kinect_rgb"))).1 = 400 ∧
    (handle_switch true
        { source := some "picam", quality := .value 150 }
        (StreamState.init "main" (some "kinect_rgb"))).2.current_source = "picam" ∧
    (StreamState.init "main" (some "kinect_rgb")).current_source = "kinect_rgb" := by
  refine ⟨rfl, rfl, rfl⟩

open HttpServer in
/-- C5 (amended): `handle_switch` validates the fields in the fixed order
source, quality, scale, picam_res and responds HTTP 400 at the first failing
field, leaving that field and every later field unapplied; a failing source
(in particular `kinect_ir` while Kinect is unavailable) leaves the stream
entirely unchanged.  Fields that validated earlier in the order than the
failing one may already have been applied. -/
theorem C5_handle_switch_validation (kav : Bool) (req : SwitchReq) (s : StreamState) :
    (∀ src, req.source = some src → src ∉ Config.get_available_sources kav →
        handle_switch kav req s = (400, s)) ∧
    (req.source = some "kinect_ir" → kav = false →
        handle_switch kav req s = (400, s)) ∧
    (quality_bad req →
        (handle_switch kav req s).1 = 400 ∧
        (handle_switch kav req s).2.jpeg_quality = s.jpeg_quality ∧
        (handle_switch kav req s).2.scale_factor = s.scale_factor ∧
        (handle_switch kav req s).2.picam_preset = s.picam_preset) ∧
    (scale_bad req →
        (handle_switch kav req s).1 = 400 ∧
        (handle_switch kav req s).2.scale_factor = s.scale_factor ∧
        (handle_switch kav req s).2.picam_preset = s.picam_preset) ∧
    (∀ p, req.picam_res = some p → p ∉ Config.PICAM_PRESET_KEYS →
        (handle_switch kav req s).1 = 400 ∧
        (handle_switch kav req s).2.picam_preset = s.picam_preset) := by
  have hsplit : ∀ (P : Nat × StreamState → Prop),
      (req.source = none → P (stage_quality req s false)) →
      (∀ src, req.source = some src → src ∈ Config.get_available_sources kav →
        P (stage_quality req (s.set_source src) true)) →
      (∀ src, req.source = some src → src ∉ Config.get_available_sources kav →
        P (400, s)) →
      P (handle_switch kav req s) := by
    intro P hnone hok hbad
    unfold handle_switch
    cases hs : req.source with
    | none => exact hnone hs
    | some src =>
        by_cases havail : src ∈ Config.get_available_sources kav
        · simp only [switch_source, if_pos havail, if_true]
          exact hok src hs havail
        · simp only [switch_source, if_neg havail, Bool.false_eq_true, if_false]
          exact hbad src hs havail
  refine ⟨?_, ?_, ?_, ?_, ?_⟩
  · intro src hsrc hbad
    unfold handle_switch
    rw [hsrc]
    simp only [switch_source, if_neg hbad, Bool.false_eq_true, if_false]
  · intro hsrc hkav
    subst hkav
    unfold handle_switch
    rw [hsrc]
    have hni : "kinect_ir" ∉ Config.get_available_sources false := by decide
    simp only [switch_source, if_neg hni, Bool.false_eq_true, if_false]
  · intro hq
    refine hsplit (fun r => r.1 = 400 ∧ r.2.jpeg_quality = s.jpeg_quality ∧
        r.2.scale_factor = s.scale_factor ∧ r.2.picam_preset = s.picam_preset)
      ?_ ?_ ?_
    · intro _
      rw [stage_quality_fail req s false hq]
      exact ⟨rfl, rfl, rfl, rfl⟩
    · intro src _ _
      rw [stage_quality_fail req _ true hq]
      exact ⟨rfl, rfl, rfl, rfl⟩
    · intro src _ _
      exact ⟨rfl, rfl, rfl, rfl⟩
  · intro hf
    refine hsplit (fun r => r.1 = 400 ∧ r.2.scale_factor = s.scale_factor ∧
        r.2.picam_preset = s.picam_preset) ?_ ?_ ?_
    · intro _
      exact stage_quality_scale_bad req s false hf
    · intro src _ _
      exact stage_quality_scale_bad req (s.set_source src) true hf
    · intro src _ _
      exact ⟨rfl, rfl, rfl⟩
  · intro p hp hbad
    refine hsplit (fun r => r.1 = 400 ∧ r.2.picam_preset = s.picam_preset) ?_ ?_ ?_
    · intro _
      exact stage_quality_picam_bad req s false p hp hbad
    · intro src _ _
      exact stage_quality_picam_bad req (s.set_source src) true p hp hbad
    · intro src _ _
      exact ⟨rfl, rfl⟩

open HttpServer in
/-- C5 witness: `/switch?source=kinect_ir&stream=main` while Kinect is
unavailable returns 400 and leaves the stream entirely unchanged; a request
with quality 150 alone returns 400 without touching any setting. -/
theorem C5_handle_switch_validation_witness :
    handle_switch false { source := some "kinect_ir" }
        (StreamState.init "main" (some "picam"))
      = (400, StreamState.init "main" (some "picam")) ∧
    ((handle_switch true { quality := .value 150 }
        (StreamState.init "main" (some "picam"))).1 = 400 ∧
      (handle_switch true { quality := .value 150 }
        (StreamState.init "main" (some "picam"))).2.jpeg_quality
        = (StreamState.init "main" (some "picam")).jpeg_quality) :=
  ⟨(C5_handle_switch_validation false { source := some "kinect_ir" }
      (StreamState.init "main" (some "picam"))).2.1 rfl rfl,
   ((C5_handle_switch_validation true { quality := .value 150 }
      (StreamState.init "main" (some "picam"))).2.2.1
        (Or.inr ⟨150, rfl, by norm_num⟩)).1,
   ((C5_handle_switch_validation true { quality := .value 150 }
      (StreamState.init "main" (some "picam"))).2.2.1
        (Or.inr ⟨150, rfl, by norm_num⟩)).2.1⟩

/-! ## Control session (`servers/control_server.py`) -/

namespace ControlServer

/-- The registry of streams held by `GlobalState` / `StreamManager`, keyed by
stream id. -/
def Registry := String → Option StreamState

/-- Replace one stream's state in the registry. -/
def Registry.set (mgr : Registry) (sid : String) (st : StreamState) : Registry :=
  fun x => if x = sid then some st else mgr x

/-- The control-session commands of `ControlServer._handle_client` that can
touch the registry or the selection (the read-only commands `streams`,
`status`, `help`, and unknown commands leave both unchanged and are modelled
by `readOnly`). -/
inductive Cmd where
  | select (sid : String)
  | sourceCmd (src : String)
  | quality (q : Int)
  | scale (f : ℚ)
  | picam_res (p : String)
  | readOnly
  deriving Repr, DecidableEq

/-- One command step of the control session: `mgr` is the stream registry,
`sel` the session's selected stream id, `kav` the Kinect availability flag. -/
def step (kav : Bool) (mgr : Registry) (sel : String) : Cmd → Registry × String
  | .select sid => if (mgr sid).isSome then (mgr, sid) else (mgr, sel)
  | .sourceCmd src =>
      if src ∈ Config.get_available_sources kav then
        match mgr sel with
        | some st => (mgr.set sel (st.set_source src), sel)
        | none => (mgr, sel)
      else (mgr, sel)
  | .quality q =>
      match mgr sel with
      | some st =>
          if 1 ≤ q ∧ q ≤ 100 then
            (mgr.set sel (st.update_settings (some q) none none), sel)
          else (mgr, sel)
      | none => (mgr, sel)
  | .scale f =>
      match mgr sel with
      | some st =>
          if 1/4 ≤ f ∧ f ≤ 2 then
            (mgr.set sel (st.update_settings none (some f) none), sel)
          else (mgr, sel)
      | none => (mgr, sel)
  | .picam_res p =>
      match mgr sel with
      | some st =>
          if p ∈ Config.PICAM_PRESET_KEYS then
            (mgr.set sel (st.update_settings none none (some p)), sel)
          else (mgr, sel)
      | none => (mgr, sel)
  | .readOnly => (mgr, sel)

/-- Process a command sequence, oldest first. -/
def run (kav : Bool) (mgr : Registry) (sel : String) : List Cmd → Registry × String
  | [] => (mgr, sel)
  | c :: rest =>
      let r := step kav mgr sel c
      run kav r.1 r.2 rest

end ControlServer

open ControlServer in
/-- C9: the control session `select main` then `quality 85` sets main's
`jpeg_quality` to 85 and leaves every other stream of the registry (in
particular `secondary`) completely unchanged, so a subsequent `status` shows
quality 85 for `main` only. -/
theorem C9_control_session_select_quality (kav : Bool) (mgr : Registry)
    (sel : String) (sm : StreamState) (hm : mgr "main" = some sm) :
    (run kav mgr sel [.select "main", .quality 85]).1 "main"
      = some (sm.update_settings (some 85) none none) ∧
    (sm.update_settings (some 85) none none).jpeg_quality = 85 ∧
    ((sm.update_settings (some 85) none none).current_source = sm.current_source ∧
      (sm.update_settings (some 85) none none).scale_factor = sm.scale_factor ∧
      (sm.update_settings (some 85) none none).picam_preset = sm.picam_preset ∧
      (sm.update_settings (some 85) none none).frame = sm.frame ∧
      (sm.update_settings (some 85) none none).frame_id = sm.frame_id ∧
      (sm.update_settings (some 85) none none).stats = sm.stats) ∧
    (∀ sid, sid ≠ "main" → (run kav mgr sel [.select "main", .quality 85]).1 sid = mgr sid) ∧
    (run kav mgr sel [.select "main", .quality 85]).2 = "main" := by
  have hsel : step kav mgr sel (.select "main") = (mgr, "main") := by
    simp [step, hm]
  have hrun : run kav mgr sel [.select "main", .quality 85]
      = (mgr.set "main" (sm.update_settings (some 85) none none), "main") := by
    show run kav (step kav mgr sel (.select "main")).1
        (step kav mgr sel (.select "main")).2 [.quality 85] = _
    rw [hsel]
    show run kav (step kav mgr "main" (.quality 85)).1
        (step kav mgr "main" (.quality 85)).2 [] = _
    simp [run, step, hm]
  refine ⟨?_, ?_, ?_, ?_, ?_⟩
  · rw [hrun]; simp [Registry.set]
  · show StreamState.clamp_quality 85 = 85
    decide
  · exact ⟨rfl, rfl, rfl, rfl, rfl, rfl⟩
  · intro sid hsid
    rw [hrun]; simp [Registry.set, hsid]
  · rw [hrun]

namespace ControlServer

/-- A registry holding exactly the streams `main` and `secondary`. -/
def exampleRegistry : Registry := fun sid =>
  if sid = "main" then some (StreamState.init "main" (some "picam"))
  else if sid = "secondary" then some (StreamState.init "secondary" (some "picam"))
  else none

end ControlServer

open ControlServer in
/-- C9 witness: on the two-stream registry, `select main` then `quality 85`
gives main quality 85 and leaves `secondary` untouched. -/
theorem C9_control_session_select_quality_witness :
    (run false exampleRegistry "main" [.select "main", .quality 85]).1 "main"
      = some ((StreamState.init "main" (some "picam")).update_settings
          (some 85) none none) ∧
    ((StreamState.init "main" (some "picam")).update_settings
        (some 85) none none).jpeg_quality = 85 ∧
    (run false exampleRegistry "main" [.select "main", .quality 85]).1 "secondary"
      = exampleRegistry "secondary" :=
  have h := C9_control_session_select_quality false exampleRegistry "main"
    (StreamState.init "main" (some "picam")) rfl
  ⟨h.1, h.2.1, h.2.2.2.1 "secondary" (by decide)⟩

/-! ## Kinect capture (`sources/kinect.py`) -/

namespace Kinect

/-- A captured Kinect frame, abstracted. -/
abbrev Frame := Nat

/-- The observable state of the `KinectCapture` singleton together with the
import-time flags and the global `config.KINECT_AVAILABLE` flag that
`update_kinect_availability` maintains. -/
structure KinectState where
  freenect_available : Bool
  cv2_available : Bool
  available : Bool
  kinect_available_global : Bool
  consecutive_failures : Nat
  deriving Repr, DecidableEq

/-- `self.max_failures = 5`. -/
def max_failures : Nat := 5

/-- `KinectCapture._mark_unavailable`: clear both the instance flag and the
global flag. -/
def mark_unavailable (k : KinectState) : KinectState :=
  { k with available := false, kinect_available_global := false }

/-- `KinectCapture._handle_failure`: increment the consecutive-failure
counter; at `max_failures` mark the Kinect unavailable. -/
def handle_failure (k : KinectState) : KinectState :=
  let k := { k with consecutive_failures := k.consecutive_failures + 1 }
  if k.consecutive_failures ≥ max_failures then mark_unavailable k else k

/-- `KinectCapture.is_available`. -/
def is_available (k : KinectState) : Bool :=
  k.available && k.freenect_available && k.cv2_available

/-- `KinectCapture.get_frame` with the hardware outcome as an oracle
(`outcome = none` covers both a `None` result and a raised exception; the
mode dispatch and scaling do not affect the failure logic).  The returned
`Bool` records whether the freenect hardware was consulted at all. -/
def kget_frame (k : KinectState) (outcome : Option Frame) :
    Option Frame × KinectState × Bool :=
  if is_available k then
    match outcome with
    | none => (none, handle_failure k, true)
    | some f => (some f, { k with consecutive_failures := 0 }, true)
  else (none, k, false)

/-- `KinectCapture.check_availability` with the probe outcome as an oracle:
on a successful probe set both availability flags and reset the failure
counter; otherwise clear both flags (the counter is left alone). -/
def check_availability (k : KinectState) (probe_ok : Bool) : Bool × KinectState :=
  if k.freenect_available && k.cv2_available then
    if probe_ok then
      (true, { k with available := true, kinect_available_global := true,
                      consecutive_failures := 0 })
    else (false, mark_unavailable k)
  else (false, mark_unavailable k)

/-- The state transformer of one failed capture attempt. -/
def failStep (k : KinectState) : KinectState :=
  (kget_frame k none).2.1

/-- `n` consecutive failed capture attempts. -/
def failN : Nat → KinectState → KinectState
  | 0, k => k
  | n + 1, k => failN n (failStep k)

end Kinect

open Kinect in
/-- C6: while available, each failed capture increments the
consecutive-failure counter and the counter reaching 5 flips both the
instance flag and the global flag to false (below 5 both flags are
untouched); while unavailable, `get_frame` returns `none` without touching
the hardware or the state; a successful `check_availability` re-probe
restores availability and resets the counter to 0.  Starting from an
available state with counter 0, the 4th consecutive failure leaves the
Kinect available and the 5th flips it to unavailable. -/
theorem C6_kinect_failure_threshold (k : KinectState) (o : Option Frame) :
    (is_available k = true →
      (failStep k).consecutive_failures = k.consecutive_failures + 1 ∧
      (5 ≤ k.consecutive_failures + 1 →
        (failStep k).available = false ∧
        (failStep k).kinect_available_global = false) ∧
      (k.consecutive_failures + 1 < 5 →
        (failStep k).available = k.available ∧
        (failStep k).kinect_available_global = k.kinect_available_global)) ∧
    (is_available k = false → kget_frame k o = (none, k, false)) ∧
    (k.freenect_available = true → k.cv2_available = true →
      check_availability k true
        = (true, { k with available := true, kinect_available_global := true,
                          consecutive_failures := 0 })) ∧
    (∀ g : Bool,
      (failN 4 ⟨true, true, true, g, 0⟩).available = true ∧
      (failN 4 ⟨true, true, true, g, 0⟩).consecutive_failures = 4 ∧
      (failN 5 ⟨true, true, true, g, 0⟩).available = false ∧
      (failN 5 ⟨true, true, true, g, 0⟩).kinect_available_global = false ∧
      (failN 5 ⟨true, true, true, g, 0⟩).consecutive_failures = 5 ∧
      check_availability (failN 5 ⟨true, true, true, g, 0⟩) true
        = (true, ⟨true, true, true, true, 0⟩)) := by
  refine ⟨?_, ?_, ?_, ?_⟩
  · intro hav
    have hstep : failStep k = handle_failure k := by
      unfold failStep kget_frame
      rw [if_pos hav]
    rw [hstep]
    unfold handle_failure
    by_cases h5 : k.consecutive_failures + 1 ≥ max_failures
    · rw [if_pos h5]
      refine ⟨rfl, fun _ => ⟨rfl, rfl⟩, fun hlt => ?_⟩
      simp only [max_failures] at h5
      omega
    · rw [if_neg h5]
      refine ⟨rfl, fun hge => ?_, fun _ => ⟨rfl, rfl⟩⟩
      simp only [max_failures] at h5
      omega
  · intro hnav
    unfold kget_frame
    rw [hnav]
    rfl
  · intro hf hc
    unfold check_availability
    rw [hf, hc]
    rfl
  · intro g
    cases g <;> exact ⟨rfl, rfl, rfl, rfl, rfl, rfl⟩

open Kinect in
/-- C6 witness: concrete five-failure run from a fresh available state, and
the unavailable state returning `none` untouched. -/
theorem C6_kinect_failure_threshold_witness :
    (failStep ⟨true, true, true, true, 0⟩).consecutive_failures = 1 ∧
    kget_frame ⟨true, true, false, false, 5⟩ (some 7)
      = (none, ⟨true, true, false, false, 5⟩, false) ∧
    check_availability ⟨true, true, false, false, 5⟩ true
      = (true, ⟨true, true, true, true, 0⟩) ∧
    (failN 5 ⟨true, true, true, true, 0⟩).available = false :=
  have h1 := C6_kinect_failure_threshold ⟨true, true, true, true, 0⟩ none
  have h2 := C6_kinect_failure_threshold ⟨true, true, false, false, 5⟩ (some 7)
  ⟨(h1.1 rfl).1, h2.2.1 rfl, by
      have h3 := h2.2.2.1 rfl rfl
      exact h3,
    (h1.2.2.2 true).2.2.1⟩

/-! ## Pi camera capture (`sources/picam.py`) -/

namespace Picam

/-- One `PiCameraCapture` instance's mutable fields (`subprocess.Popen`
handles are modelled by fresh pids). -/
structure PicamInst where
  process : Option Nat := none
  running : Bool := false
  frame_buffer : Option Bytes := none
  current_preset : Option String := none
  available_command : Option String := none
  deriving Repr, DecidableEq

/-- The whole-process view: every `PiCameraCapture` instance (indexed by
`Nat`), the class-level `_active_instance`, a fresh-pid supply, and a count
of subprocesses spawned so far (each `subprocess.Popen` call increments
it). -/
structure PicamSys where
  insts : Nat → PicamInst
  active : Option Nat := none
  next_pid : Nat := 0
  spawn_count : Nat := 0

/-- Replace one instance. -/
def setInst (sys : PicamSys) (i : Nat) (v : PicamInst) : PicamSys :=
  { sys with insts := fun j => if j = i then v else sys.insts j }

/-- `PiCameraCapture._stop_internal` on instance `i`: terminate the process,
clear the buffer and the preset, and clear `_active_instance` when it is
this instance. -/
def stop_internal (sys : PicamSys) (i : Nat) : PicamSys :=
  let sys' := setInst sys i
    { sys.insts i with
      running := false, process := none, frame_buffer := none,
      current_preset := none }
  if sys'.active = some i then { sys' with active := none } else sys'

/-- The first block of `PiCameraCapture.start` under `_hardware_lock`: stop
any other active instance. -/
def stop_other_active (sys : PicamSys) (i : Nat) : PicamSys :=
  match sys.active with
  | some j => if j = i then sys else stop_internal sys j
  | none => sys

/-- The launch block of `PiCameraCapture.start`: fail when no camera command
is available, otherwise try `subprocess.Popen` (`spawn_ok` is the oracle for
whether it raises); on success record the process, mark running, store the
preset and become the active instance. -/
def launch (sys : PicamSys) (i : Nat) (preset : String) (spawn_ok : Bool) :
    PicamSys × Bool :=
  if (sys.insts i).available_command = none then (sys, false)
  else if spawn_ok then
    ({ setInst sys i
        { sys.insts i with
          process := some sys.next_pid, running := true,
          current_preset := some preset } with
      active := some i, next_pid := sys.next_pid + 1,
      spawn_count := sys.spawn_count + 1 }, true)
  else (sys, false)

/-- `PiCameraCapture.start`: stop any other active instance; if our process
is already running with the same preset return `True` without spawning,
with a different preset tear it down first; then launch. -/
def start (sys : PicamSys) (i : Nat) (preset : String) (spawn_ok : Bool) :
    PicamSys × Bool :=
  let sys1 := stop_other_active sys i
  if (sys1.insts i).process.isSome then
    if (sys1.insts i).current_preset = some preset then (sys1, true)
    else launch (stop_internal sys1 i) i preset spawn_ok
  else launch sys1 i preset spawn_ok

/-- `PiCameraCapture.stop`. -/
def stop (sys : PicamSys) (i : Nat) : PicamSys :=
  stop_internal sys i

/-- The operations that drive the subprocess lifecycle. -/
inductive Op where
  | start (i : Nat) (preset : String) (spawn_ok : Bool)
  | stop (i : Nat)

/-- Apply one lifecycle operation. -/
def applyOp (sys : PicamSys) : Op → PicamSys
  | .start i preset spawn_ok => (start sys i preset spawn_ok).1
  | .stop i => stop sys i

/-- Apply a sequence of lifecycle operations, oldest first. -/
def applyOps (sys : PicamSys) (ops : List Op) : PicamSys :=
  ops.foldl applyOp sys

/-- The initial system: no instance has a process, none is active.
`cmd` is each instance's detected camera command. -/
def initSys (cmd : Nat → Option String) : PicamSys :=
  { insts := fun i => { available_command := cmd i } }

/-- The key invariant: only the active instance can hold a process. -/
def Inv (sys : PicamSys) : Prop :=
  ∀ j, ((sys.insts j).process).isSome → sys.active = some j

lemma setInst_same (sys : PicamSys) (i : Nat) (v : PicamInst) :
    (setInst sys i v).insts i = v := by
  simp [setInst]

lemma setInst_other (sys : PicamSys) (i j : Nat) (v : PicamInst) (h : j ≠ i) :
    (setInst sys i v).insts j = sys.insts j := by
  simp [setInst, h]

lemma stop_internal_self (sys : PicamSys) (i : Nat) :
    ((stop_internal sys i).insts i).process = none := by
  unfold stop_internal
  by_cases h : (setInst sys i
      { sys.insts i with
        running := false, process := none, frame_buffer := none,
        current_preset := none }).active = some i <;>
    simp [h, setInst_same]

lemma stop_internal_other (sys : PicamSys) (i j : Nat) (h : j ≠ i) :
    (stop_internal sys i).insts j = sys.insts j := by
  unfold stop_internal
  by_cases hA : (setInst sys i
      { sys.insts i with
        running := false, process := none, frame_buffer := none,
        current_preset := none }).active = some i <;>
    simp [hA, setInst_other sys i j _ h]

lemma stop_internal_active (sys : PicamSys) (i : Nat) :
    (stop_internal sys i).active = if sys.active = some i then none else sys.active := by
  unfold stop_internal
  have : (setInst sys i
      { sys.insts i with
        running := false, process := none, frame_buffer := none,
        current_preset := none }).active = sys.active := rfl
  by_cases h : sys.active = some i
  · rw [if_pos h, if_pos (this.trans h)]
  · rw [if_neg h, if_neg (fun hc => h (this ▸ hc))]
    exact this

lemma Inv_stop_internal (sys : PicamSys) (i : Nat) (hInv : Inv sys) :
    Inv (stop_internal sys i) := by
  intro j hj
  by_cases hji : j = i
  · subst hji
    rw [stop_internal_self] at hj
    simp at hj
  · rw [stop_internal_other sys i j hji] at hj
    have hact := hInv j hj
    rw [stop_internal_active]
    rw [if_neg ?_]
    · exact hact
    · rw [hact]
      intro hc
      exact hji (Option.some.injEq .. ▸ hc)

lemma stop_internal_next_pid (sys : PicamSys) (i : Nat) :
    (stop_internal sys i).next_pid = sys.next_pid := by
  unfold stop_internal
  dsimp only
  split <;> rfl

lemma stop_internal_spawn_count (sys : PicamSys) (i : Nat) :
    (stop_internal sys i).spawn_count = sys.spawn_count := by
  unfold stop_internal
  dsimp only
  split <;> rfl

lemma stop_internal_inst_self (sys : PicamSys) (i : Nat) :
    (stop_internal sys i).insts i =
      { sys.insts i with
        running := false, process := none, frame_buffer := none,
        current_preset := none } := by
  unfold stop_internal
  by_cases h : (setInst sys i
      { sys.insts i with
        running := false, process := none, frame_buffer := none,
        current_preset := none }).active = some i <;> simp [h, setInst_same]

lemma soa_none (sys : PicamSys) (i : Nat) (h : sys.active = none) :
    stop_other_active sys i = sys := by
  unfold stop_other_active; rw [h]

lemma soa_self (sys : PicamSys) (i : Nat) (h : sys.active = some i) :
    stop_other_active sys i = sys := by
  unfold stop_other_active; rw [h]
  exact if_pos rfl

lemma soa_other (sys : PicamSys) (i j : Nat) (h : sys.active = some j) (hne : j ≠ i) :
    stop_other_active sys i = stop_internal sys j := by
  unfold stop_other_active; rw [h]
  exact if_neg hne

lemma soa_inst_self (sys : PicamSys) (i : Nat) :
    (stop_other_active sys i).insts i = sys.insts i := by
  cases hA : sys.active with
  | none => rw [soa_none sys i hA]
  | some j =>
      by_cases hji : j = i
      · rw [hji] at hA; rw [soa_self sys i hA]
      · rw [soa_other sys i j hA hji, stop_internal_other sys j i (fun hc => hji hc.symm)]

lemma soa_next_pid (sys : PicamSys) (i : Nat) :
    (stop_other_active sys i).next_pid = sys.next_pid := by
  cases hA : sys.active with
  | none => rw [soa_none sys i hA]
  | some j =>
      by_cases hji : j = i
      · rw [hji] at hA; rw [soa_self sys i hA]
      · rw [soa_other sys i j hA hji, stop_internal_next_pid]

lemma soa_spawn_count (sys : PicamSys) (i : Nat) :
    (stop_other_active sys i).spawn_count = sys.spawn_count := by
  cases hA : sys.active with
  | none => rw [soa_none sys i hA]
  | some j =>
      by_cases hji : j = i
      · rw [hji] at hA; rw [soa_self sys i hA]
      · rw [soa_other sys i j hA hji, stop_internal_spawn_count]

lemma Inv_soa (sys : PicamSys) (i : Nat) (hInv : Inv sys) :
    Inv (stop_other_active sys i) := by
  cases hA : sys.active with
  | none => rw [soa_none sys i hA]; exact hInv
  | some j =>
      by_cases hji : j = i
      · rw [hji] at hA; rw [soa_self sys i hA]; exact hInv
      · rw [soa_other sys i j hA hji]; exact Inv_stop_internal sys j hInv

lemma others_stopped (sys : PicamSys) (i : Nat) (hInv : Inv sys) :
    ∀ k, k ≠ i → ((stop_other_active sys i).insts k).process = none := by
  intro k hk
  cases hA : sys.active with
  | none =>
      rw [soa_none sys i hA]
      cases hp : (sys.insts k).process with
      | none => rfl
      | some q =>
          have := hInv k (by rw [hp]; rfl)
          rw [hA] at this; cases this
  | some j =>
      by_cases hji : j = i
      · rw [hji] at hA
        rw [soa_self sys i hA]
        cases hp : (sys.insts k).process with
        | none => rfl
        | some q =>
            have := hInv k (by rw [hp]; rfl)
            rw [hA] at this
            exact absurd (Option.some.inj this).symm hk
      · rw [soa_other sys i j hA hji]
        by_cases hkj : k = j
        · rw [hkj]; exact stop_internal_self sys j
        · rw [stop_internal_other sys j k hkj]
          cases hp : (sys.insts k).process with
          | none => rfl
          | some q =>
              have := hInv k (by rw [hp]; rfl)
              rw [hA] at this
              exact absurd (Option.some.inj this).symm hkj

/-- The state produced by a successful `subprocess.Popen` inside `start`. -/
def spawnSys (sys : PicamSys) (i : Nat) (preset : String) : PicamSys :=
  { setInst sys i
      { sys.insts i with
        process := some sys.next_pid, running := true,
        current_preset := some preset } with
    active := some i, next_pid := sys.next_pid + 1,
    spawn_count := sys.spawn_count + 1 }

lemma launch_no_cmd (sys : PicamSys) (i : Nat) (preset : String) (ok : Bool)
    (h : (sys.insts i).available_command = none) :
    launch sys i preset ok = (sys, false) := by
  unfold launch
  rw [if_pos h]

lemma launch_spawn_fail (sys : PicamSys) (i : Nat) (preset : String)
    (h : (sys.insts i).available_command ≠ none) :
    launch sys i preset false = (sys, false) := by
  unfold launch
  rw [if_neg h]
  rfl

lemma launch_ok (sys : PicamSys) (i : Nat) (preset : String)
    (h : (sys.insts i).available_command ≠ none) :
    launch sys i preset true = (spawnSys sys i preset, true) := by
  unfold launch spawnSys
  rw [if_neg h, if_pos rfl]

lemma Inv_spawnSys (sys : PicamSys) (i : Nat) (preset : String)
    (hOthers : ∀ k, k ≠ i → ((sys.insts k).process) = none) :
    Inv (spawnSys sys i preset) := by
  intro j hj
  by_cases hji : j = i
  · subst hji; rfl
  · exfalso
    have : (spawnSys sys i preset).insts j = sys.insts j := by
      unfold spawnSys
      exact setInst_other sys i j _ hji
    rw [this, hOthers j hji] at hj
    cases hj

lemma Inv_launch (sys : PicamSys) (i : Nat) (preset : String) (ok : Bool)
    (hInv : Inv sys)
    (hOthers : ∀ k, k ≠ i → ((sys.insts k).process) = none) :
    Inv (launch sys i preset ok).1 := by
  by_cases hc : (sys.insts i).available_command = none
  · rw [launch_no_cmd sys i preset ok hc]; exact hInv
  · cases ok with
    | false => rw [launch_spawn_fail sys i preset hc]; exact hInv
    | true =>
        rw [launch_ok sys i preset hc]
        exact Inv_spawnSys sys i preset hOthers

lemma Inv_start (sys : PicamSys) (i : Nat) (preset : String) (ok : Bool)
    (hInv : Inv sys) : Inv (start sys i preset ok).1 := by
  have hInv1 : Inv (stop_other_active sys i) := Inv_soa sys i hInv
  have hOthers := others_stopped sys i hInv
  unfold start
  by_cases hp : ((stop_other_active sys i).insts i).process.isSome
  · rw [if_pos hp]
    by_cases hpre : ((stop_other_active sys i).insts i).current_preset = some preset
    · rw [if_pos hpre]; exact hInv1
    · rw [if_neg hpre]
      refine Inv_launch _ i preset ok (Inv_stop_internal _ i hInv1) ?_
      intro k hk
      by_cases hki : k = i
      · exact absurd hki hk
      · rw [stop_internal_other _ i k hki]
        exact hOthers k hki
  · rw [if_neg hp]
    refine Inv_launch _ i preset ok hInv1 hOthers

lemma Inv_applyOp (sys : PicamSys) (op : Op) (hInv : Inv sys) :
    Inv (applyOp sys op) := by
  cases op with
  | start i preset ok => exact Inv_start sys i preset ok hInv
  | stop i => exact Inv_stop_internal sys i hInv

lemma Inv_initSys (cmd : Nat → Option String) : Inv (initSys cmd) := by
  intro j hj
  simp [initSys] at hj

lemma Inv_applyOps (cmd : Nat → Option String) (ops : List Op) :
    Inv (applyOps (initSys cmd) ops) := by
  suffices h : ∀ (ops : List Op) (sys : PicamSys), Inv sys → Inv (applyOps sys ops) by
    exact h ops (initSys cmd) (Inv_initSys cmd)
  intro ops
  induction ops with
  | nil => intro sys h; exact h
  | cons op rest ih =>
      intro sys h
      exact ih (applyOp sys op) (Inv_applyOp sys op h)

lemma start_ready (sys : PicamSys) (i : Nat) (p : String) (ok : Bool)
    (h1 : sys.active = some i)
    (h2 : ((sys.insts i).process).isSome = true)
    (h3 : (sys.insts i).current_preset = some p) :
    start sys i p ok = (sys, true) := by
  unfold start
  dsimp only
  rw [soa_self sys i h1, if_pos h2, if_pos h3]

lemma launch_true_state (sys : PicamSys) (i : Nat) (p : String) (ok : Bool)
    (h : (launch sys i p ok).2 = true) :
    (launch sys i p ok).1.active = some i ∧
    (((launch sys i p ok).1.insts i).process).isSome = true ∧
    ((launch sys i p ok).1.insts i).current_preset = some p := by
  by_cases hc : (sys.insts i).available_command = none
  · rw [launch_no_cmd sys i p ok hc] at h; exact Bool.noConfusion h
  · cases ok with
    | false => rw [launch_spawn_fail sys i p hc] at h; exact Bool.noConfusion h
    | true =>
        rw [launch_ok sys i p hc]
        have hins : (spawnSys sys i p).insts i
            = { sys.insts i with
                process := some sys.next_pid, running := true,
                current_preset := some p } := setInst_same sys i _
        refine ⟨rfl, ?_, ?_⟩ <;> (rw [hins]; try rfl)

lemma launch_true_spawn_count (sys : PicamSys) (i : Nat) (p : String) (ok : Bool)
    (h : (launch sys i p ok).2 = true) :
    (launch sys i p ok).1.spawn_count = sys.spawn_count + 1 := by
  by_cases hc : (sys.insts i).available_command = none
  · rw [launch_no_cmd sys i p ok hc] at h; exact Bool.noConfusion h
  · cases ok with
    | false => rw [launch_spawn_fail sys i p hc] at h; exact Bool.noConfusion h
    | true => rw [launch_ok sys i p hc]; rfl

lemma start_true_state (sys : PicamSys) (i : Nat) (p : String) (ok : Bool)
    (hInv : Inv sys) (h : (start sys i p ok).2 = true) :
    (start sys i p ok).1.active = some i ∧
    (((start sys i p ok).1.insts i).process).isSome = true ∧
    ((start sys i p ok).1.insts i).current_preset = some p := by
  have hInv1 : Inv (stop_other_active sys i) := Inv_soa sys i hInv
  unfold start at h ⊢
  dsimp only at h ⊢
  by_cases hp : (((stop_other_active sys i).insts i).process).isSome = true
  · rw [if_pos hp] at h ⊢
    by_cases hpre : ((stop_other_active sys i).insts i).current_preset = some p
    · rw [if_pos hpre] at h ⊢
      exact ⟨hInv1 i hp, hp, hpre⟩
    · rw [if_neg hpre] at h ⊢
      exact launch_true_state _ i p ok h
  · rw [if_neg hp] at h ⊢
    exact launch_true_state _ i p ok h

lemma start_spawn_once (sys : PicamSys) (i : Nat) (p : String) (ok : Bool)
    (hpnone : (sys.insts i).process = none)
    (h : (start sys i p ok).2 = true) :
    (start sys i p ok).1.spawn_count = sys.spawn_count + 1 := by
  have hps : ¬ ((((stop_other_active sys i).insts i).process).isSome = true) := by
    rw [soa_inst_self sys i, hpnone]
    exact Bool.noConfusion
  unfold start at h ⊢
  dsimp only at h ⊢
  rw [if_neg hps] at h ⊢
  rw [launch_true_spawn_count _ i p ok h, soa_spawn_count sys i]

lemma start_relaunch (t : PicamSys) (i : Nat) (p p' : String) (c : String)
    (h1 : t.active = some i)
    (h2 : ((t.insts i).process).isSome = true)
    (h3 : (t.insts i).current_preset = some p)
    (hne : p' ≠ p) (hc : (t.insts i).available_command = some c) :
    (start t i p' true).2 = true ∧
    ((start t i p' true).1.insts i).current_preset = some p' ∧
    ((start t i p' true).1.insts i).process = some t.next_pid ∧
    (start t i p' true).1.spawn_count = t.spawn_count + 1 ∧
    ((start t i p' true).1.insts i).frame_buffer = none := by
  have hpre' : ¬ ((t.insts i).current_preset = some p') := by
    rw [h3]
    intro hcn
    exact hne (Option.some.inj hcn).symm
  have hc2 : ((stop_internal t i).insts i).available_command ≠ none := by
    rw [stop_internal_inst_self]
    show (t.insts i).available_command ≠ none
    rw [hc]
    exact fun hx => Option.noConfusion hx
  unfold start
  dsimp only
  rw [soa_self t i h1, if_pos h2, if_neg hpre', launch_ok (stop_internal t i) i p' hc2]
  have hins : (spawnSys (stop_internal t i) i p').insts i
      = { (stop_internal t i).insts i with
          process := some (stop_internal t i).next_pid, running := true,
          current_preset := some p' } := setInst_same _ i _
  refine ⟨rfl, ?_, ?_, ?_, ?_⟩
  · rw [hins]
  · rw [hins]
    show some (stop_internal t i).next_pid = some t.next_pid
    rw [stop_internal_next_pid]
  · show (stop_internal t i).spawn_count + 1 = t.spawn_count + 1
    rw [stop_internal_spawn_count]
  · rw [hins]
    show ((stop_internal t i).insts i).frame_buffer = none
    rw [stop_internal_inst_self]

lemma launch_inst_other (sys : PicamSys) (i k : Nat) (p : String) (ok : Bool)
    (hki : k ≠ i) :
    ((launch sys i p ok).1).insts k = sys.insts k := by
  by_cases hc : (sys.insts i).available_command = none
  · rw [launch_no_cmd sys i p ok hc]
  · cases ok with
    | false => rw [launch_spawn_fail sys i p hc]
    | true =>
        rw [launch_ok sys i p hc]
        exact setInst_other sys i k _ hki

lemma start_inst_other (sys : PicamSys) (i k : Nat) (p : String) (ok : Bool)
    (hki : k ≠ i) :
    ((start sys i p ok).1).insts k = (stop_other_active sys i).insts k := by
  unfold start
  dsimp only
  by_cases hp : (((stop_other_active sys i).insts i).process).isSome = true
  · rw [if_pos hp]
    by_cases hpre : ((stop_other_active sys i).insts i).current_preset = some p
    · rw [if_pos hpre]
    · rw [if_neg hpre, launch_inst_other _ i k p ok hki,
        stop_internal_other _ i k hki]
  · rw [if_neg hp]
    exact launch_inst_other _ i k p ok hki

end Picam

open Picam in
/-- C7: once `start i preset` has returned `True`, calling it again with the
same preset is a no-op that returns `True` with the system (and hence the
spawn count) unchanged; the first call from a non-running instance spawned
exactly one subprocess; and a later `start` with a different preset tears the
process down and relaunches: the instance ends up with a fresh pid, the new
preset, a cleared frame buffer, and exactly one more spawn. -/
theorem C7_picam_start_idempotent (sys : PicamSys) (i : Nat) (p : String)
    (ok : Bool) (hInv : Inv sys) (h : (start sys i p ok).2 = true) :
    (∀ ok', start ((start sys i p ok).1) i p ok'
        = ((start sys i p ok).1, true)) ∧
    ((sys.insts i).process = none →
      ((start sys i p ok).1).spawn_count = sys.spawn_count + 1) ∧
    (∀ p' c, p' ≠ p →
      (((start sys i p ok).1).insts i).available_command = some c →
      (start ((start sys i p ok).1) i p' true).2 = true ∧
      (((start ((start sys i p ok).1) i p' true).1).insts i).current_preset
        = some p' ∧
      (((start ((start sys i p ok).1) i p' true).1).insts i).process
        = some ((start sys i p ok).1).next_pid ∧
      ((start ((start sys i p ok).1) i p' true).1).spawn_count
        = ((start sys i p ok).1).spawn_count + 1 ∧
      (((start ((start sys i p ok).1) i p' true).1).insts i).frame_buffer
        = none) := by
  obtain ⟨h1, h2, h3⟩ := start_true_state sys i p ok hInv h
  exact ⟨fun ok' => start_ready _ i p ok' h1 h2 h3,
    fun hpn => start_spawn_once sys i p ok hpn h,
    fun p' c hne hc => start_relaunch _ i p p' c h1 h2 h3 hne hc⟩

open Picam in
/-- C7 witness: starting instance 0 with preset `high` on a fresh system
succeeds and spawns once; an immediately repeated `start` with `high` is a
no-op returning `True`. -/
theorem C7_picam_start_idempotent_witness :
    (start (initSys (fun _ => some "rpicam-vid")) 0 "high" true).2 = true ∧
    start ((start (initSys (fun _ => some "rpicam-vid")) 0 "high" true).1)
        0 "high" false
      = ((start (initSys (fun _ => some "rpicam-vid")) 0 "high" true).1, true) ∧
    ((start (initSys (fun _ => some "rpicam-vid")) 0 "high" true).1).spawn_count
      = (initSys (fun _ => some "rpicam-vid")).spawn_count + 1 :=
  ⟨rfl,
   (C7_picam_start_idempotent (initSys (fun _ => some "rpicam-vid")) 0 "high"
      true (Inv_initSys _) rfl).1 false,
   (C7_picam_start_idempotent (initSys (fun _ => some "rpicam-vid")) 0 "high"
      true (Inv_initSys _) rfl).2.1 rfl⟩

open Picam in
/-- C8: only the active `PiCameraCapture` instance can hold a process; this
invariant holds initially, is preserved by every `start`/`stop`, and hence
holds in every reachable state, so at most one instance has a running
subprocess at any time; moreover starting instance `b` while `a` is active
first runs `_stop_internal` on `a` (terminating its process and clearing the
active instance) before `b` launches, and `a`'s process is still cleared
after the whole `start`. -/
theorem C8_picam_single_active_process (sys : PicamSys) (ops : List Picam.Op)
    (cmd : Nat → Option String) (a b : Nat) (p : String) (ok : Bool) :
    Inv (initSys cmd) ∧
    (∀ op, Inv sys → Inv (applyOp sys op)) ∧
    Inv (applyOps (initSys cmd) ops) ∧
    (Inv sys → ∀ j k, (((sys.insts j).process)).isSome →
      (((sys.insts k).process)).isSome → j = k) ∧
    (Inv sys → sys.active = some a → a ≠ b →
      stop_other_active sys b = stop_internal sys a ∧
      ((stop_internal sys a).insts a).process = none ∧
      (stop_internal sys a).active = none ∧
      (((start sys b p ok).1).insts a).process = none) := by
  refine ⟨Inv_initSys cmd, fun op hI => Inv_applyOp sys op hI, Inv_applyOps cmd ops,
    ?_, ?_⟩
  · intro hInv j k hj hk
    have haj := hInv j hj
    have hak := hInv k hk
    exact Option.some.inj (haj.symm.trans hak)
  · intro hInv hA hab
    refine ⟨soa_other sys b a hA hab, stop_internal_self sys a, ?_, ?_⟩
    · rw [stop_internal_active, if_pos hA]
    · rw [start_inst_other sys b a p ok hab]
      exact others_stopped sys b hInv a hab

open Picam in
/-- C8 witness: starting instance 0 then instance 1 on a fresh system leaves
instance 0 without a process, and in the reached state no two distinct
instances hold a process. -/
theorem C8_picam_single_active_process_witness :
    ((applyOps (initSys (fun _ => some "rpicam-vid"))
        [.start 0 "high" true, .start 1 "low" true]).insts 0).process = none ∧
    (∀ j k,
      (((applyOps (initSys (fun _ => some "rpicam-vid"))
          [.start 0 "high" true, .start 1 "low" true]).insts j).process).isSome →
      (((applyOps (initSys (fun _ => some "rpicam-vid"))
          [.start 0 "high" true, .start 1 "low" true]).insts k).process).isSome →
      j = k) :=
  ⟨rfl,
   (C8_picam_single_active_process
      (applyOps (initSys (fun _ => some "rpicam-vid"))
        [.start 0 "high" true, .start 1 "low" true]) [] (fun _ => some "rpicam-vid")
      0 0 "high" true).2.2.2.1
     ((C8_picam_single_active_process
        (applyOps (initSys (fun _ => some "rpicam-vid"))
          [.start 0 "high" true, .start 1 "low" true])
        [.start 0 "high" true, .start 1 "low" true] (fun _ => some "rpicam-vid")
        0 0 "high" true).2.2.1)⟩

end MarpPi
